import Mathlib

/-!
Shallow embedding of `src/vs/workbench/parts/files/common/editors/fileEditorTracker.ts`
(`FileEditorTracker`), the resource-change reconciliation engine: given filesystem
change notifications and internal save/move notifications, it decides which open
editor handles to dispose, reopen at a new path, reload, or leave alone.

Paths (`URI.fsPath` / `URI.toString`) are embedded as their list of segments.
Collaborator code that is not part of this repository snapshot (the paths API,
`FileChangesEvent`, `LocalFileChangeEvent`) is modelled from the spec, as noted
on each such definition.  Effects are reified as `Command` values: a handler is
embedded as a pure function from its inputs and the current registry state to
the list of commands it issues.  A JavaScript `TypeError` from dereferencing a
missing (`null`) value is modelled as the handler returning `none`.
-/

namespace FileEditorTracker

/-- A filesystem path, embedded as its list of path segments. -/
abbrev FsPath := List String

/-- Case folding of one character: ASCII upper-case letters map to their
lower-case counterparts. -/
def foldChar (c : Char) : Char :=
  if c.val ≥ 65 && c.val ≤ 90 then Char.ofNat (c.toNat + 32) else c

/-- Case folding of one path segment. -/
def foldSeg (s : String) : String := ⟨s.data.map foldChar⟩

/-- Case folding of a whole path. -/
def foldPath (p : FsPath) : FsPath := p.map foldSeg

/-- `segsLead a b` holds when segment list `a` is an initial run of `b`
(so the path `a` equals `b` or is an ancestor of `b` at a segment boundary). -/
def segsLead : FsPath → FsPath → Bool
  | [], _ => true
  | _ :: _, [] => false
  | a :: as, b :: bs => decide (a = b) && segsLead as bs

/-- Modelled from the spec: `paths.isEqualOrParent` (§4.5 Path Identity Resolver),
whose source is not under `src/`.  `isEqualOrParent path candidate` is true when
`candidate` equals `path` or is an ancestor of `path` at a segment boundary.
The comparison is case-insensitive, matching the case-insensitive host
filesystem that the case-only-rename guard in `handleDeletes` is written for
(the source comments that the paths API treats `/A/file.txt` and `/a/file.txt`
as equal there). -/
def isEqualOrParent (path candidate : FsPath) : Bool :=
  segsLead (foldPath candidate) (foldPath path)

/-- External change kinds (`FileChangeType` of `vs/platform/files`). -/
inductive FileChangeType
  | UPDATED
  | ADDED
  | DELETED
deriving DecidableEq, Repr

/-- One record of an external batch event. -/
structure FileChange where
  resource : FsPath
  type : FileChangeType
deriving DecidableEq, Repr

/-- An external batch event: a set of `(resource, kind)` records (§4.1). -/
structure FileChangesEvent where
  changes : List FileChange
deriving DecidableEq, Repr

/-- Modelled from the spec: `FileChangesEvent.contains` (§4.1, §4.2), whose
source is not under `src/`.  A `DELETED` query also matches a resource equal to
or nested under a deleted path; other kinds match the record resource exactly. -/
def FileChangesEvent.contains (e : FileChangesEvent) (resource : FsPath)
    (t : FileChangeType) : Bool :=
  e.changes.any fun c =>
    decide (c.type = t) &&
      (match t with
       | FileChangeType.DELETED => isEqualOrParent resource c.resource
       | _ => decide (c.resource = resource))

/-- Modelled from the spec: `FileChangesEvent.gotDeleted`, whose source is not
under `src/`: the batch carries at least one `DELETED` record. -/
def FileChangesEvent.gotDeleted (e : FileChangesEvent) : Bool :=
  e.changes.any fun c => decide (c.type = FileChangeType.DELETED)

/-- Text file model states (`ModelState` of `vs/workbench/services/textfile`);
only `SAVED` ("clean" per §4.4) is consulted by the tracker. -/
inductive ModelState
  | SAVED
  | DIRTY
  | PENDING_SAVE
  | CONFLICT
  | ERROR
deriving DecidableEq, Repr

/-- A resolved text file model, as read through `ITextFileService.models`. -/
structure TextFileModel where
  resource : FsPath
  state : ModelState
  lastSaveAttemptTime : Nat
  lastModifiedTime : Nat
deriving DecidableEq, Repr

/-- An open file editor input (`FileEditorInput`): its resource identity and
whether it currently holds unsaved edits. -/
structure FileEditorInput where
  resource : FsPath
  isDirty : Bool
deriving DecidableEq, Repr

/-- One side of a `SideBySideEditorInput`: either a file input or some other
editor input kind. -/
inductive InputPart
  | file (f : FileEditorInput)
  | other
deriving DecidableEq, Repr

/-- An editor input as seen in a group: a plain file input, a side-by-side
composite with `master` and `details` parts, or some other input kind. -/
inductive EditorInput
  | file (f : FileEditorInput)
  | sideBySide (master details : InputPart)
  | other
deriving DecidableEq, Repr

/-- An editor group of the groups model, with the presentation queries the
tracker forwards (`isPinned`, `indexOf`, `isActive`). -/
structure Group where
  editors : List EditorInput
  pinned : EditorInput → Bool
  index : EditorInput → Nat
  active : EditorInput → Bool

/-- A command the tracker issues to its collaborators: dispose an input,
reopen a resource with presentation options at a group position, reload a
text model, or force a full reopen of an input (binary update path). -/
inductive Command
  | dispose (input : FileEditorInput)
  | reopen (resource : FsPath) (pinned : Bool) (index : Nat) (inactive : Bool)
      (groupPosition : Nat)
  | reload (resource : FsPath)
  | forceOpen (input : EditorInput) (position : Nat)
deriving DecidableEq, Repr

/-- The file inputs contributed by one editor input: a plain file input is
itself; a side-by-side input contributes its master and details when they are
file inputs (lines 121-145). -/
def fileInputsOf : EditorInput → List FileEditorInput
  | EditorInput.file f => [f]
  | EditorInput.sideBySide m d =>
      (match m with | InputPart.file f => [f] | InputPart.other => []) ++
      (match d with | InputPart.file f => [f] | InputPart.other => [])
  | EditorInput.other => []

/-- `getOpenedFileInputs` (lines 121-145): all open leaf file inputs across all
groups, unwrapping side-by-side composites. -/
def getOpenedFileInputs (groups : List Group) : List FileEditorInput :=
  groups.flatMap fun g => g.editors.flatMap fileInputsOf

/-- The argument driving one delete pass: a single deleted resource (local
event) or an external batch event. -/
inductive DeleteArg
  | uri (resource : FsPath)
  | event (e : FileChangesEvent)

/-- The per-input disposal condition of `handleDeletes` (lines 94-119): the
input is not dirty, is not exactly the move destination, and matches the
delete signal (batch: a `DELETED` record contains it; local: its resource
equals or is nested under the deleted resource). -/
def disposeCond (arg : DeleteArg) (movedTo : Option FsPath)
    (input : FileEditorInput) : Bool :=
  !input.isDirty &&
  !(match movedTo with
    | some m => decide (m = input.resource)
    | none => false) &&
  (match arg with
   | DeleteArg.event e => e.contains input.resource FileChangeType.DELETED
   | DeleteArg.uri r => isEqualOrParent input.resource r)

/-- `handleDeletes` (lines 94-119), returning the inputs it disposes. -/
def handleDeletes (groups : List Group) (arg : DeleteArg)
    (movedTo : Option FsPath) : List FileEditorInput :=
  (getOpenedFileInputs groups).filter (disposeCond arg movedTo)

/-- The reopen target computed by `handleMovedFileInOpenedEditors` (lines
156-162): the new resource itself on an exact match, otherwise the new
resource followed by the remainder segments of the input resource past the
old-resource path. -/
def rewriteMoved (oldResource newResource resource : FsPath) : FsPath :=
  if oldResource = resource then newResource
  else newResource ++ resource.drop oldResource.length

/-- The reopen commands one group contributes in
`handleMovedFileInOpenedEditors` (lines 149-168): only plain file inputs are
considered, matched with `isEqualOrParent` against the old resource. -/
def moveCommandsForGroup (oldResource newResource : FsPath) (position : Nat)
    (g : Group) : List Command :=
  g.editors.filterMap fun input =>
    match input with
    | EditorInput.file f =>
        if isEqualOrParent f.resource oldResource then
          some (Command.reopen (rewriteMoved oldResource newResource f.resource)
            (g.pinned input) (g.index input) (!g.active input) position)
        else none
    | _ => none

/-- `handleMovedFileInOpenedEditors` (lines 147-170) over all groups, with each
group at its groups position. -/
def handleMovedFileInOpenedEditors (oldResource newResource : FsPath)
    (groups : List Group) : List Command :=
  groups.enum.flatMap fun pg => moveCommandsForGroup oldResource newResource pg.1 pg.2

/-- Whether some group holds a plain (non-composite) file input. -/
def hasPlainFileInput (groups : List Group) : Bool :=
  groups.any fun g => g.editors.any fun i =>
    match i with
    | EditorInput.file _ => true
    | _ => false

/-- `handleMovedFileInOpenedEditors` as called from `onLocalFileChange` (line
74), where the old resource may be missing (`null`): the loop body dereferences
`oldResource.fsPath` (line 155) as soon as it visits a plain file input, so a
missing old resource raises (`none`) exactly when some plain file input is
open; with no plain file input open the pass completes without commands. -/
def handleMovedOpt (oldResource : Option FsPath) (newResource : FsPath)
    (groups : List Group) : Option (List Command) :=
  match oldResource with
  | some o => some (handleMovedFileInOpenedEditors o newResource groups)
  | none => if hasPlainFileInput groups then none else some []

/-- Modelled from the spec: `LocalFileChangeEvent` (§4.1), whose source is not
under `src/`: a single-resource lifecycle event carrying an optional
before/after resource pair and the `wasDeleted` / `wasMoved` flags. -/
structure LocalFileChangeEvent where
  before : Option FsPath
  after : Option FsPath
  wasMoved : Bool
  wasDeleted : Bool
deriving DecidableEq, Repr

/-- Line 67: `e.gotMoved() && e.getAfter() && e.getAfter().resource` — the move
destination, present only when the event reports a move and carries an after
resource. -/
def LocalFileChangeEvent.movedTo (e : LocalFileChangeEvent) : Option FsPath :=
  if e.wasMoved then e.after else none

/-- `onLocalFileChange` (lines 66-81), returning the issued commands, or `none`
when processing dereferences a missing resource (a thrown `TypeError`): the
move pass may dereference a missing before resource (line 155 via line 74),
and the delete pass dereferences `e.getBefore().resource` unconditionally
(line 79). -/
def onLocalFileChange (e : LocalFileChangeEvent) (groups : List Group) :
    Option (List Command) :=
  match (match e.movedTo with
         | some a => handleMovedOpt e.before a groups
         | none => some []) with
  | none => none
  | some moveCmds =>
      if e.wasDeleted || e.movedTo.isSome then
        match e.before with
        | none => none
        | some b =>
            some (moveCmds ++
              (handleDeletes groups (DeleteArg.uri b) e.movedTo).map Command.dispose)
      else some moveCmds

/-- `FILE_CHANGE_UPDATE_DELAY` (line 28): the reload debounce window in ms. -/
def FILE_CHANGE_UPDATE_DELAY : Nat := 2000

/-- Modelled from the spec: the binary file editor identifier
(`BINARY_FILE_EDITOR_ID` of `vs/workbench/parts/files`), whose source is not
under `src/`; only its identity matters to the tracker. -/
def BINARY_FILE_EDITOR_ID : String := "workbench.editors.files.binaryFileEditor"

/-- `getMatchingFileEditorInputFromInput` (lines 254-260): a file input whose
resource has an `UPDATED` record in the batch event. -/
def getMatchingFileEditorInputFromInput (e : FileChangesEvent) :
    InputPart → Option FileEditorInput
  | InputPart.file f =>
      if e.contains f.resource FileChangeType.UPDATED then some f else none
  | InputPart.other => none

/-- `getMatchingFileEditorInputFromSideBySide` (lines 241-252): try the master
first, then the details. -/
def getMatchingFileEditorInputFromSideBySide (master details : InputPart)
    (e : FileChangesEvent) : Option FileEditorInput :=
  match getMatchingFileEditorInputFromInput e master with
  | some f => some f
  | none => getMatchingFileEditorInputFromInput e details

/-- The candidate selection of `handleUpdatesToVisibleEditors` (lines 175-187):
a side-by-side input is first narrowed through
`getMatchingFileEditorInputFromSideBySide`; the surviving file input is a
candidate when the event has an `UPDATED` or `ADDED` record for its resource. -/
def candidateInput (e : FileChangesEvent) : EditorInput → Option FileEditorInput
  | EditorInput.file f =>
      if e.contains f.resource FileChangeType.UPDATED ||
         e.contains f.resource FileChangeType.ADDED then some f else none
  | EditorInput.sideBySide m d =>
      match getMatchingFileEditorInputFromSideBySide m d e with
      | some f =>
          if e.contains f.resource FileChangeType.UPDATED ||
             e.contains f.resource FileChangeType.ADDED then some f else none
      | none => none
  | EditorInput.other => none

/-- One visible editor as returned by `editorService.getVisibleEditors()`: its
input, its editor id (`editor.getId()`), and its position. -/
structure VisibleEditor where
  input : EditorInput
  id : String
  position : Nat

/-- The action `handleUpdatesToVisibleEditors` (lines 172-218) takes for one
visible editor: a candidate with a resolved text model is reloaded exactly
when the model is in `SAVED` state and the change arrived later than the
debounce window after the last save attempt; a candidate with no text model
shown in the binary editor is force-reopened. -/
def updateActionForEditor (now : Nat) (models : FsPath → Option TextFileModel)
    (e : FileChangesEvent) (ed : VisibleEditor) : Option Command :=
  match candidateInput e ed.input with
  | none => none
  | some f =>
      match models f.resource with
      | some m =>
          if m.state = ModelState.SAVED then
            if now - m.lastSaveAttemptTime > FILE_CHANGE_UPDATE_DELAY then
              some (Command.reload f.resource)
            else none
          else none
      | none =>
          if ed.id = BINARY_FILE_EDITOR_ID then
            some (Command.forceOpen ed.input ed.position)
          else none

/-- `handleUpdatesToVisibleEditors` (lines 172-218) over all visible editors. -/
def handleUpdatesToVisibleEditors (now : Nat)
    (models : FsPath → Option TextFileModel) (visible : List VisibleEditor)
    (e : FileChangesEvent) : List Command :=
  visible.filterMap (updateActionForEditor now models e)

/-- `onFileChanges` (lines 83-92): update handling for visible editors, then
delete handling when the batch carries a delete. -/
def onFileChanges (now : Nat) (models : FsPath → Option TextFileModel)
    (visible : List VisibleEditor) (groups : List Group)
    (e : FileChangesEvent) : List Command :=
  handleUpdatesToVisibleEditors now models visible e ++
    (if e.gotDeleted then
      (handleDeletes groups (DeleteArg.event e) none).map Command.dispose
     else [])

/-- An editor as observed when an asynchronous reload completes: whether it is
still visible and what input it now holds (`none` when disposed or empty). -/
structure EditorView where
  visible : Bool
  input : Option EditorInput

/-- `isEditorShowingPath` (lines 220-239): the editor is visible, has an input
(unwrapping a side-by-side input to its master), and that input is a file
input whose resource equals the given resource exactly. -/
def isEditorShowingPath (ed : EditorView) (resource : FsPath) : Bool :=
  ed.visible &&
    match ed.input with
    | none => false
    | some (EditorInput.file f) => decide (f.resource = resource)
    | some (EditorInput.sideBySide m _) =>
        match m with
        | InputPart.file f => decide (f.resource = resource)
        | InputPart.other => false
    | some EditorInput.other => false

/-- The view-state restoration guard of the reload continuation (lines
202-206): restore only when the modification time observed after the load
differs from the one captured before it and the editor still shows the
model's resource. -/
def restoresViewState (currentMtime mtimeAfterLoad : Nat) (ed : EditorView)
    (modelResource : FsPath) : Bool :=
  decide (mtimeAfterLoad ≠ currentMtime) && isEditorShowingPath ed modelResource

/-- The effect of `onFileChanges` on the set of open file inputs: inputs
disposed by `handleDeletes` are removed; reloads and forced reopens leave the
set unchanged (a forced reopen reopens the same input, line 213). -/
def applyFileChanges (e : FileChangesEvent) (openInputs : List FileEditorInput) :
    List FileEditorInput :=
  if e.gotDeleted then
    openInputs.filter fun i => !(disposeCond (DeleteArg.event e) none i)
  else openInputs

section Examples

/-- A dirty open file input. -/
def dirtyInputEx : FileEditorInput := ⟨["doc.txt"], true⟩

/-- A group holding the dirty input. -/
def dirtyGroupEx : Group :=
  ⟨[EditorInput.file dirtyInputEx], fun _ => true, fun _ => 0, fun _ => true⟩

/-- A batch event deleting the dirty input's resource. -/
def deleteEventEx : FileChangesEvent :=
  ⟨[⟨["doc.txt"], FileChangeType.DELETED⟩]⟩

/-- A clean saved text model with a concrete last save attempt time. -/
def savedModelEx : TextFileModel := ⟨["a.txt"], ModelState.SAVED, 7000, 42⟩

/-- A model lookup resolving only the saved model's resource. -/
def modelsEx : FsPath → Option TextFileModel :=
  fun r => if r = ["a.txt"] then some savedModelEx else none

/-- A batch event updating the saved model's resource. -/
def updEventEx : FileChangesEvent := ⟨[⟨["a.txt"], FileChangeType.UPDATED⟩]⟩

/-- A visible text editor showing the saved model's resource. -/
def textEditorEx : VisibleEditor :=
  ⟨EditorInput.file ⟨["a.txt"], false⟩, "workbench.editors.files.textFileEditor", 0⟩

/-- A clean open file input at `/proj/src/x.ts`. -/
def movedInputEx : FileEditorInput := ⟨["proj", "src", "x.ts"], false⟩

/-- A group holding the input at `/proj/src/x.ts`, pinned, at index 2, active. -/
def movedGroupEx : Group :=
  ⟨[EditorInput.file movedInputEx], fun _ => true, fun _ => 2, fun _ => true⟩

/-- A group holding only a side-by-side composite whose master leaf sits at
`/proj/src/x.ts`. -/
def compositeGroupEx : Group :=
  ⟨[EditorInput.sideBySide (InputPart.file ⟨["proj", "src", "x.ts"], false⟩)
      InputPart.other],
   fun _ => false, fun _ => 0, fun _ => false⟩

/-- A group holding only a side-by-side composite whose master leaf sits at
`/docs/guide/intro.md`. -/
def compositeGroupC3Ex : Group :=
  ⟨[EditorInput.sideBySide (InputPart.file ⟨["docs", "guide", "intro.md"], false⟩)
      InputPart.other],
   fun _ => true, fun _ => 1, fun _ => true⟩

/-- The local lifecycle event of the case-only rename
`/A/file.txt -> /a/file.txt`. -/
def caseRenameEventEx : LocalFileChangeEvent :=
  ⟨some ["A", "file.txt"], some ["a", "file.txt"], true, false⟩

/-- A group holding the handle still at the old casing `/A/file.txt`. -/
def caseGroupOldEx : Group :=
  ⟨[EditorInput.file ⟨["A", "file.txt"], false⟩],
   fun _ => true, fun _ => 0, fun _ => true⟩

/-- The handle reopened at the new casing `/a/file.txt`. -/
def caseInputNewEx : FileEditorInput := ⟨["a", "file.txt"], false⟩

/-- A group holding the handle at the new casing. -/
def caseGroupNewEx : Group :=
  ⟨[EditorInput.file caseInputNewEx], fun _ => true, fun _ => 0, fun _ => true⟩

/-- A batch event carrying only an `ADDED` record for `/img/new.png`. -/
def addedOnlyEventEx : FileChangesEvent :=
  ⟨[⟨["img", "new.png"], FileChangeType.ADDED⟩]⟩

/-- A side-by-side composite whose master leaf sits at `/img/new.png`. -/
def compositeAddedInputEx : EditorInput :=
  EditorInput.sideBySide (InputPart.file ⟨["img", "new.png"], false⟩)
    InputPart.other

/-- A visible binary editor showing `/img/a.png` at position 3. -/
def binEditorEx : VisibleEditor :=
  ⟨EditorInput.file ⟨["img", "a.png"], false⟩, BINARY_FILE_EDITOR_ID, 3⟩

/-- A batch event updating `/img/a.png`. -/
def binUpdEventEx : FileChangesEvent :=
  ⟨[⟨["img", "a.png"], FileChangeType.UPDATED⟩]⟩

/-- A local move event whose before resource is missing. -/
def missingBeforeEventEx : LocalFileChangeEvent :=
  ⟨none, some ["b.txt"], true, false⟩

/-- A local move event whose after resource is missing. -/
def missingAfterEventEx : LocalFileChangeEvent :=
  ⟨some ["b.txt"], none, true, false⟩

/-- A group holding one plain clean file input. -/
def plainGroupEx : Group :=
  ⟨[EditorInput.file ⟨["x.txt"], false⟩], fun _ => false, fun _ => 0, fun _ => false⟩

end Examples

section Lemmas

/-- Filtering a list twice by the same predicate equals filtering it once. -/
theorem filter_twice {α : Type} (p : α → Bool) (l : List α) :
    (l.filter p).filter p = l.filter p := by
  induction l with
  | nil => rfl
  | cons a t ih =>
      by_cases h : p a = true
      · simp [List.filter_cons, h, ih]
      · simp [List.filter_cons, h, ih]

/-- Characterization of the commands one group contributes to a move pass. -/
theorem mem_moveCommandsForGroup_iff (o n : FsPath) (pos : Nat) (g : Group)
    (c : Command) :
    c ∈ moveCommandsForGroup o n pos g ↔
      ∃ f, EditorInput.file f ∈ g.editors ∧ isEqualOrParent f.resource o = true ∧
        c = Command.reopen (rewriteMoved o n f.resource)
              (g.pinned (EditorInput.file f)) (g.index (EditorInput.file f))
              (!g.active (EditorInput.file f)) pos := by
  simp only [moveCommandsForGroup, List.mem_filterMap]
  constructor
  · rintro ⟨input, hin, hsome⟩
    cases input with
    | file f =>
        by_cases hm : isEqualOrParent f.resource o = true
        · simp only [hm, if_true] at hsome
          exact ⟨f, hin, hm, (Option.some.inj hsome).symm⟩
        · simp [hm] at hsome
    | sideBySide m d => exact Option.noConfusion hsome
    | other => exact Option.noConfusion hsome
  · rintro ⟨f, hin, hm, rfl⟩
    exact ⟨EditorInput.file f, hin, by simp [hm]⟩

/-- Characterization of the commands of a whole move pass: exactly one reopen
per plain file input that equals or is nested under the old resource, at the
rewritten target, carrying the group's presentation state and position. -/
theorem mem_handleMoved_iff (o n : FsPath) (groups : List Group) (c : Command) :
    c ∈ handleMovedFileInOpenedEditors o n groups ↔
      ∃ pos g f, (pos, g) ∈ groups.enum ∧ EditorInput.file f ∈ g.editors ∧
        isEqualOrParent f.resource o = true ∧
        c = Command.reopen (rewriteMoved o n f.resource)
              (g.pinned (EditorInput.file f)) (g.index (EditorInput.file f))
              (!g.active (EditorInput.file f)) pos := by
  simp only [handleMovedFileInOpenedEditors, List.mem_flatMap]
  constructor
  · rintro ⟨⟨pos, g⟩, hpg, hc⟩
    obtain ⟨f, hin, hm, rfl⟩ := (mem_moveCommandsForGroup_iff o n pos g _).mp hc
    exact ⟨pos, g, f, hpg, hin, hm, rfl⟩
  · rintro ⟨pos, g, f, hpg, hin, hm, rfl⟩
    exact ⟨(pos, g), hpg, (mem_moveCommandsForGroup_iff o n pos g _).mpr
      ⟨f, hin, hm, rfl⟩⟩

/-- Any input a delete pass disposes is not dirty. -/
theorem isDirty_false_of_mem_handleDeletes {groups : List Group}
    {arg : DeleteArg} {movedTo : Option FsPath} {i : FileEditorInput}
    (h : i ∈ handleDeletes groups arg movedTo) : i.isDirty = false := by
  have hc := List.of_mem_filter h
  unfold disposeCond at hc
  simp only [Bool.and_eq_true, Bool.not_eq_true'] at hc
  exact hc.1.1

/-- Every command a move pass issues is a reopen command. -/
theorem reopen_of_mem_handleMoved {o n : FsPath} {groups : List Group}
    {c : Command} (h : c ∈ handleMovedFileInOpenedEditors o n groups) :
    ∃ r p ix ia pos, c = Command.reopen r p ix ia pos := by
  obtain ⟨pos, g, f, _, _, _, rfl⟩ := (mem_handleMoved_iff o n groups c).mp h
  exact ⟨_, _, _, _, _, rfl⟩

/-- Every command the possibly-null move pass issues is a reopen command. -/
theorem reopen_of_mem_handleMovedOpt {o : Option FsPath} {n : FsPath}
    {groups : List Group} {mc : List Command} {c : Command}
    (h : handleMovedOpt o n groups = some mc) (hc : c ∈ mc) :
    ∃ r p ix ia pos, c = Command.reopen r p ix ia pos := by
  unfold handleMovedOpt at h
  cases o with
  | some o =>
      obtain rfl : handleMovedFileInOpenedEditors o n groups = mc :=
        Option.some.inj h
      exact reopen_of_mem_handleMoved hc
  | none =>
      by_cases hp : hasPlainFileInput groups = true
      · simp [hp] at h
      · simp [hp] at h
        subst h
        exact absurd hc (List.not_mem_nil c)

/-- Every action update handling takes is a reload or a forced reopen. -/
theorem updateAction_shape {now : Nat} {models : FsPath → Option TextFileModel}
    {e : FileChangesEvent} {ed : VisibleEditor} {c : Command}
    (h : updateActionForEditor now models e ed = some c) :
    (∃ r, c = Command.reload r) ∨ (∃ i p, c = Command.forceOpen i p) := by
  unfold updateActionForEditor at h
  cases hcand : candidateInput e ed.input with
  | none => simp [hcand] at h
  | some f =>
      simp only [hcand] at h
      cases hm : models f.resource with
      | some m =>
          simp only [hm] at h
          by_cases hs : m.state = ModelState.SAVED
          · simp only [hs, if_true] at h
            by_cases ht : now - m.lastSaveAttemptTime > FILE_CHANGE_UPDATE_DELAY
            · simp only [ht, if_true] at h
              exact Or.inl ⟨f.resource, (Option.some.inj h).symm⟩
            · simp [ht] at h
          · simp [hs] at h
      | none =>
          simp only [hm] at h
          by_cases hid : ed.id = BINARY_FILE_EDITOR_ID
          · simp only [hid, if_true] at h
            exact Or.inr ⟨ed.input, ed.position, (Option.some.inj h).symm⟩
          · simp [hid] at h

/-- Any input whose dispose command appears among the commands of a local
lifecycle pass is not dirty. -/
theorem dirty_false_of_dispose_mem_onLocalFileChange
    {e : LocalFileChangeEvent} {groups : List Group} {cmds : List Command}
    {i : FileEditorInput} (h : onLocalFileChange e groups = some cmds)
    (hm : Command.dispose i ∈ cmds) : i.isDirty = false := by
  unfold onLocalFileChange at h
  cases hstep : (match e.movedTo with
                 | some a => handleMovedOpt e.before a groups
                 | none => some []) with
  | none => simp [hstep] at h
  | some mc =>
      simp only [hstep] at h
      have hmc : ∀ c ∈ mc, ∃ r p ix ia pos, c = Command.reopen r p ix ia pos := by
        intro c hc
        cases hmt : e.movedTo with
        | some a =>
            rw [hmt] at hstep
            exact reopen_of_mem_handleMovedOpt hstep hc
        | none =>
            rw [hmt] at hstep
            obtain rfl : ([] : List Command) = mc := Option.some.inj hstep
            exact absurd hc (List.not_mem_nil c)
      by_cases hdel : (e.wasDeleted || e.movedTo.isSome) = true
      · simp only [hdel, if_true] at h
        cases hb : e.before with
        | none => simp [hb] at h
        | some b =>
            simp only [hb] at h
            obtain rfl := Option.some.inj h
            rcases List.mem_append.mp hm with hl | hr
            · obtain ⟨r, p, ix, ia, pos, hshape⟩ := hmc _ hl
              exact absurd hshape (by simp)
            · obtain ⟨j, hj, hji⟩ := List.mem_map.mp hr
              obtain rfl : j = i := by
                injection hji
              exact isDirty_false_of_mem_handleDeletes hj
      · simp only [hdel, if_false] at h
        obtain rfl := Option.some.inj h
        obtain ⟨r, p, ix, ia, pos, hshape⟩ := hmc _ hm
        exact absurd hshape (by simp)

/-- The one-side matcher only returns a file input whose resource has an
`UPDATED` record in the batch event. -/
theorem updated_of_getMatchingFromInput {e : FileChangesEvent} {p : InputPart}
    {f : FileEditorInput} (h : getMatchingFileEditorInputFromInput e p = some f) :
    e.contains f.resource FileChangeType.UPDATED = true := by
  cases p with
  | file f0 =>
      simp only [getMatchingFileEditorInputFromInput] at h
      split at h
      next hu =>
        obtain rfl := Option.some.inj h
        exact hu
      next hu => exact Option.noConfusion h
  | other => exact Option.noConfusion h

/-- The side-by-side matcher only returns a file input whose resource has an
`UPDATED` record in the batch event. -/
theorem updated_of_getMatchingSideBySide {e : FileChangesEvent}
    {m d : InputPart} {f : FileEditorInput}
    (h : getMatchingFileEditorInputFromSideBySide m d e = some f) :
    e.contains f.resource FileChangeType.UPDATED = true := by
  unfold getMatchingFileEditorInputFromSideBySide at h
  cases hm : getMatchingFileEditorInputFromInput e m with
  | some f0 =>
      rw [hm] at h
      obtain rfl : f0 = f := Option.some.inj h
      exact updated_of_getMatchingFromInput hm
  | none =>
      rw [hm] at h
      exact updated_of_getMatchingFromInput h

end Lemmas

section Claims

/-- C1: for every open handle with `isDirty = true`, processing any delete or
move notification — whether a local lifecycle event (`onLocalFileChange`) or
an external batch event (`onFileChanges`) — never issues a dispose command for
that handle. -/
theorem dirty_handle_never_disposed (f : FileEditorInput)
    (hf : f.isDirty = true) :
    (∀ e groups cmds, onLocalFileChange e groups = some cmds →
        Command.dispose f ∉ cmds) ∧
    (∀ now models visible groups e,
        Command.dispose f ∉ onFileChanges now models visible groups e) := by
  constructor
  · intro e groups cmds h hmem
    have hdf := dirty_false_of_dispose_mem_onLocalFileChange h hmem
    rw [hf] at hdf
    exact Bool.noConfusion hdf
  · intro now models visible groups e hmem
    unfold onFileChanges handleUpdatesToVisibleEditors at hmem
    rcases List.mem_append.mp hmem with hl | hr
    · obtain ⟨ed, _, hact⟩ := List.mem_filterMap.mp hl
      rcases updateAction_shape hact with ⟨r, hc⟩ | ⟨i, p, hc⟩ <;>
        exact Command.noConfusion hc
    · by_cases hd : e.gotDeleted = true
      · simp only [hd, if_true] at hr
        obtain ⟨j, hj, hji⟩ := List.mem_map.mp hr
        obtain rfl : j = f := by injection hji
        have hdf := isDirty_false_of_mem_handleDeletes hj
        rw [hf] at hdf
        exact Bool.noConfusion hdf
      · simp [hd] at hr

/-- Witness for C1: a concrete dirty input is not disposed by a batch event
that deletes its resource. -/
theorem dirty_handle_never_disposed_witness :
    dirtyInputEx.isDirty = true ∧
    Command.dispose dirtyInputEx ∉
      onFileChanges 0 (fun _ => none) [] [dirtyGroupEx] deleteEventEx :=
  ⟨rfl, (dirty_handle_never_disposed dirtyInputEx rfl).2 0 (fun _ => none) []
    [dirtyGroupEx] deleteEventEx⟩

/-- C2: for a visible text editor whose file input has an `UPDATED` record in
the batch and whose model is in clean `SAVED` state, an update 500 ms after
the last save attempt issues no reload, an update 3000 ms after it issues a
reload, and the debounce window is 2000 ms. -/
theorem text_reload_debounce (now : Nat)
    (models : FsPath → Option TextFileModel) (e : FileChangesEvent)
    (ed : VisibleEditor) (f : FileEditorInput) (m : TextFileModel)
    (h1 : ed.input = EditorInput.file f)
    (h2 : e.contains f.resource FileChangeType.UPDATED = true)
    (h3 : models f.resource = some m)
    (h4 : m.state = ModelState.SAVED) :
    FILE_CHANGE_UPDATE_DELAY = 2000 ∧
    (now - m.lastSaveAttemptTime = 500 →
      updateActionForEditor now models e ed = none) ∧
    (now - m.lastSaveAttemptTime = 3000 →
      updateActionForEditor now models e ed = some (Command.reload f.resource)) := by
  have hcand : candidateInput e ed.input = some f := by
    rw [h1]
    unfold candidateInput
    simp [h2]
  refine ⟨rfl, ?_, ?_⟩ <;> intro ht <;>
    simp [updateActionForEditor, hcand, h3, h4, ht, FILE_CHANGE_UPDATE_DELAY]

/-- Witness for C2: the concrete saved model at save time 7000 with an update
at 7500 is not reloaded, and with an update at 10000 is reloaded. -/
theorem text_reload_debounce_witness :
    updateActionForEditor 7500 modelsEx updEventEx textEditorEx = none ∧
    updateActionForEditor 10000 modelsEx updEventEx textEditorEx =
      some (Command.reload ["a.txt"]) :=
  ⟨(text_reload_debounce 7500 modelsEx updEventEx textEditorEx
      ⟨["a.txt"], false⟩ savedModelEx rfl (by decide) rfl rfl).2.1 rfl,
   (text_reload_debounce 10000 modelsEx updEventEx textEditorEx
      ⟨["a.txt"], false⟩ savedModelEx rfl (by decide) rfl rfl).2.2 rfl⟩

/-- C3 counterexample: the master leaf of a side-by-side composite at
`/docs/guide/intro.md` is an open leaf handle (it is enumerated by
`getOpenedFileInputs`) nested under the moved `/docs/guide`, yet the move pass
issues no command at all, so in particular it is not reopened at the rewritten
path `/docs/manual/intro.md`: the claim fails for composite-wrapped open
handles. -/
theorem composite_handle_under_move_not_reopened :
    (⟨["docs", "guide", "intro.md"], false⟩ : FileEditorInput) ∈
        getOpenedFileInputs [compositeGroupC3Ex] ∧
    isEqualOrParent ["docs", "guide", "intro.md"] ["docs", "guide"] = true ∧
    handleMovedFileInOpenedEditors ["docs", "guide"] ["docs", "manual"]
        [compositeGroupC3Ex] = [] :=
  ⟨by decide, by decide, by decide⟩

/-- C3 (amended): every plainly open (non-composite) file input equal to or
nested under the moved old resource is reopened: at the new resource itself on
an exact match, otherwise at the new resource followed by the remainder
segments past the old resource path, with the group's pinned / index / active
state forwarded; leaf handles inside side-by-side composites are not reopened
by the move pass. -/
theorem moved_handle_reopened_at_rewritten_path (o n : FsPath)
    (groups : List Group) (pos : Nat) (g : Group) (f : FileEditorInput)
    (hpg : (pos, g) ∈ groups.enum) (hin : EditorInput.file f ∈ g.editors)
    (hmatch : isEqualOrParent f.resource o = true) :
    Command.reopen (if o = f.resource then n else n ++ f.resource.drop o.length)
      (g.pinned (EditorInput.file f)) (g.index (EditorInput.file f))
      (!g.active (EditorInput.file f)) pos
      ∈ handleMovedFileInOpenedEditors o n groups :=
  (mem_handleMoved_iff o n groups _).mpr ⟨pos, g, f, hpg, hin, hmatch, rfl⟩

/-- Witness for C3: the handle at `/proj/src/x.ts` is reopened at
`/proj/lib/x.ts` under the move `/proj/src -> /proj/lib`, keeping its pinned
state, index 2 and active state. -/
theorem moved_handle_reopened_at_rewritten_path_witness :
    Command.reopen ["proj", "lib", "x.ts"] true 2 false 0
      ∈ handleMovedFileInOpenedEditors ["proj", "src"] ["proj", "lib"]
          [movedGroupEx] :=
  moved_handle_reopened_at_rewritten_path ["proj", "src"] ["proj", "lib"]
    [movedGroupEx] 0 movedGroupEx movedInputEx
    (List.mem_singleton.mpr rfl) (List.mem_singleton.mpr rfl) (by decide)

/-- C10: applying the same batch event twice to the set of open file inputs
produces the same final set as applying it once. -/
theorem batch_event_idempotent (e : FileChangesEvent)
    (s : List FileEditorInput) :
    applyFileChanges e (applyFileChanges e s) = applyFileChanges e s := by
  unfold applyFileChanges
  by_cases h : e.gotDeleted = true
  · simp only [h, if_true]
    exact filter_twice _ s
  · simp [h]

/-- C4 counterexample: the master leaf of a side-by-side composite at
`/proj/src/x.ts` is an open leaf handle (it is enumerated by
`getOpenedFileInputs`) and is nested under the moved `/proj/src`, yet the move
pass issues no command at all: composite leaves are not reopened. -/
theorem composite_leaf_not_reopened_on_move :
    (⟨["proj", "src", "x.ts"], false⟩ : FileEditorInput) ∈
        getOpenedFileInputs [compositeGroupEx] ∧
    isEqualOrParent ["proj", "src", "x.ts"] ["proj", "src"] = true ∧
    handleMovedFileInOpenedEditors ["proj", "src"] ["proj", "lib"]
        [compositeGroupEx] = [] :=
  ⟨by decide, by decide, by decide⟩

/-- C4 (amended): a move pass reopens exactly the plainly open file inputs
that equal or are nested under the old resource, each at the rewritten path
with the group's presentation state; leaf handles inside side-by-side
composites and handles not under the old resource contribute no command. -/
theorem move_pass_reopens_exactly_plain_matching_handles (o n : FsPath)
    (groups : List Group) (c : Command) :
    c ∈ handleMovedFileInOpenedEditors o n groups ↔
      ∃ pos g f, (pos, g) ∈ groups.enum ∧ EditorInput.file f ∈ g.editors ∧
        isEqualOrParent f.resource o = true ∧
        c = Command.reopen (rewriteMoved o n f.resource)
              (g.pinned (EditorInput.file f)) (g.index (EditorInput.file f))
              (!g.active (EditorInput.file f)) pos :=
  mem_handleMoved_iff o n groups c

/-- C5: a delete pass carrying a move destination never disposes a handle
whose resource is exactly that destination; concretely, the case-only rename
`/A/file.txt -> /a/file.txt` reopens the handle at `/a/file.txt`, and the
handle at `/a/file.txt` — although the case-insensitive delete match would
select it — is not disposed by the delete-of-old-path pass. -/
theorem move_destination_never_disposed :
    (∀ groups arg m i, i.resource = m →
        i ∉ handleDeletes groups arg (some m)) ∧
    Command.reopen ["a", "file.txt"] true 0 false 0 ∈
      (onLocalFileChange caseRenameEventEx [caseGroupOldEx]).getD [] ∧
    isEqualOrParent caseInputNewEx.resource ["A", "file.txt"] = true ∧
    caseInputNewEx ∉
      handleDeletes [caseGroupNewEx] (DeleteArg.uri ["A", "file.txt"])
        (some ["a", "file.txt"]) := by
  refine ⟨?_, by decide, by decide, by decide⟩
  intro groups arg m i hres hmem
  subst hres
  have hc := List.of_mem_filter hmem
  unfold disposeCond at hc
  simp at hc

/-- Witness for C5: the concrete handle at the destination `/a/file.txt` is
skipped by the delete pass of the case-only rename. -/
theorem move_destination_never_disposed_witness :
    caseInputNewEx ∉
      handleDeletes [caseGroupNewEx] (DeleteArg.uri ["A", "file.txt"])
        (some caseInputNewEx.resource) :=
  move_destination_never_disposed.1 [caseGroupNewEx]
    (DeleteArg.uri ["A", "file.txt"]) caseInputNewEx.resource caseInputNewEx rfl

/-- C6 counterexample: the batch event carries an `ADDED` record for the
resource of a composite's master leaf, yet that leaf is not selected as an
update candidate, and update handling takes no action even though its model
is clean, saved long ago: for composite leaves an `ADDED` record alone never
selects them. -/
theorem composite_leaf_added_only_not_candidate :
    addedOnlyEventEx.contains ["img", "new.png"] FileChangeType.ADDED = true ∧
    candidateInput addedOnlyEventEx compositeAddedInputEx = none ∧
    updateActionForEditor 10000
      (fun _ => some ⟨["img", "new.png"], ModelState.SAVED, 0, 5⟩)
      addedOnlyEventEx ⟨compositeAddedInputEx, BINARY_FILE_EDITOR_ID, 0⟩ = none :=
  ⟨by decide, by decide, by decide⟩

/-- C6 (amended): a plain visible file handle is an update candidate iff the
batch event carries an `UPDATED` or `ADDED` record for its resource; a leaf
unwrapped from a side-by-side composite is a candidate only if the event
carries an `UPDATED` record for its resource; every candidate has an
`UPDATED` or `ADDED` record, so a handle with neither record is skipped. -/
theorem update_candidate_characterization :
    (∀ e f, candidateInput e (EditorInput.file f) = some f ↔
        (e.contains f.resource FileChangeType.UPDATED = true ∨
         e.contains f.resource FileChangeType.ADDED = true)) ∧
    (∀ e m d f, candidateInput e (EditorInput.sideBySide m d) = some f →
        e.contains f.resource FileChangeType.UPDATED = true) ∧
    (∀ e input f, candidateInput e input = some f →
        (e.contains f.resource FileChangeType.UPDATED = true ∨
         e.contains f.resource FileChangeType.ADDED = true)) := by
  have hplain : ∀ e f, candidateInput e (EditorInput.file f) = some f ↔
      (e.contains f.resource FileChangeType.UPDATED = true ∨
       e.contains f.resource FileChangeType.ADDED = true) := by
    intro e f
    simp only [candidateInput]
    constructor
    · intro h
      split at h
      next hc =>
        simp only [Bool.or_eq_true] at hc
        exact hc
      next hc => exact Option.noConfusion h
    · intro h
      have hcond : (e.contains f.resource FileChangeType.UPDATED ||
          e.contains f.resource FileChangeType.ADDED) = true := by
        rcases h with h | h <;> simp [h]
      rw [if_pos hcond]
  have hside : ∀ e m d f,
      candidateInput e (EditorInput.sideBySide m d) = some f →
      e.contains f.resource FileChangeType.UPDATED = true := by
    intro e m d f h
    simp only [candidateInput] at h
    split at h
    next f0 hms =>
      split at h
      next hc =>
        obtain rfl := Option.some.inj h
        exact updated_of_getMatchingSideBySide hms
      next hc => exact Option.noConfusion h
    next hms => exact Option.noConfusion h
  refine ⟨hplain, hside, ?_⟩
  intro e input f h
  cases input with
  | file f0 =>
      have hf0 : f0 = f := by
        simp only [candidateInput] at h
        split at h
        next hc => exact Option.some.inj h
        next hc => exact Option.noConfusion h
      subst hf0
      exact (hplain e f0).mp h
  | sideBySide m d => exact Or.inl (hside e m d f h)
  | other => exact Option.noConfusion h

/-- Witness for C6 (amended): a plain handle with an `ADDED` record is a
candidate, by the characterization. -/
theorem update_candidate_characterization_witness :
    candidateInput addedOnlyEventEx
        (EditorInput.file ⟨["img", "new.png"], false⟩) =
      some ⟨["img", "new.png"], false⟩ :=
  (update_candidate_characterization.1 addedOnlyEventEx
    ⟨["img", "new.png"], false⟩).mpr (Or.inr (by decide))

/-- C7: a visible editor with a plain file input, no resolved text model, and
the binary file editor id, whose resource has an `UPDATED` or `ADDED` record
in the batch, is always force-reopened — `now` and the models of all other
resources are arbitrary, so no save timestamp or debounce state matters. -/
theorem binary_editor_always_force_reopened (now : Nat)
    (models : FsPath → Option TextFileModel) (e : FileChangesEvent)
    (ed : VisibleEditor) (f : FileEditorInput)
    (h1 : ed.input = EditorInput.file f)
    (h2 : e.contains f.resource FileChangeType.UPDATED = true ∨
          e.contains f.resource FileChangeType.ADDED = true)
    (h3 : models f.resource = none)
    (h4 : ed.id = BINARY_FILE_EDITOR_ID) :
    updateActionForEditor now models e ed =
      some (Command.forceOpen ed.input ed.position) := by
  have hcand : candidateInput e ed.input = some f := by
    rw [h1]
    unfold candidateInput
    rcases h2 with h | h <;> simp [h]
  simp [updateActionForEditor, hcand, h3, h4]

/-- Witness for C7: the binary editor at `/img/a.png` is force-reopened on an
`UPDATED` record, with no model resolved anywhere. -/
theorem binary_editor_always_force_reopened_witness :
    updateActionForEditor 0 (fun _ => none) binUpdEventEx binEditorEx =
      some (Command.forceOpen binEditorEx.input 3) :=
  binary_editor_always_force_reopened 0 (fun _ => none) binUpdEventEx
    binEditorEx ⟨["img", "a.png"], false⟩ rfl (Or.inl (by decide)) rfl rfl

/-- C8 counterexample: a local event reporting a move with a present after
resource but a missing before resource is not a guarded no-op: with one plain
clean file input open, processing dereferences the missing before resource
(line 155) and raises, modelled as `none`. -/
theorem missing_before_raises :
    onLocalFileChange missingBeforeEventEx [plainGroupEx] = none :=
  by decide

/-- C8 (amended): a local move event with a missing after resource (and no
delete flag) is a no-op and raises no error; but a local event reporting a
delete, or a move that does carry an after resource, whose before resource is
missing, raises (the before resource is dereferenced without a null check). -/
theorem local_event_missing_resource (e : LocalFileChangeEvent)
    (groups : List Group) :
    (e.wasMoved = true → e.after = none → e.wasDeleted = false →
        onLocalFileChange e groups = some []) ∧
    ((e.wasDeleted = true ∨ (e.wasMoved = true ∧ e.after.isSome = true)) →
        e.before = none → onLocalFileChange e groups = none) := by
  constructor
  · intro hm ha hd
    unfold onLocalFileChange LocalFileChangeEvent.movedTo
    simp [hm, ha, hd]
  · intro hor hb
    unfold onLocalFileChange
    cases hmt : e.movedTo with
    | some a =>
        rw [hb]
        unfold handleMovedOpt
        by_cases hp : hasPlainFileInput groups = true
        · simp [hp]
        · simp [hp, hmt, hb]
    | none =>
        have hd : e.wasDeleted = true := by
          rcases hor with h | ⟨hm, ha⟩
          · exact h
          · unfold LocalFileChangeEvent.movedTo at hmt
            rw [hm, if_pos rfl] at hmt
            rw [hmt] at ha
            exact Bool.noConfusion ha
        simp [hmt, hd, hb]

/-- Witness for C8 (amended): a concrete move event with before present and
after missing is processed as a no-op, and the concrete missing-before event
raises in a registry with one plain file input. -/
theorem local_event_missing_resource_witness :
    onLocalFileChange missingAfterEventEx [plainGroupEx] = some [] ∧
    onLocalFileChange missingBeforeEventEx [plainGroupEx] = none :=
  ⟨(local_event_missing_resource missingAfterEventEx [plainGroupEx]).1
      rfl rfl rfl,
   (local_event_missing_resource missingBeforeEventEx [plainGroupEx]).2
      (Or.inr ⟨rfl, rfl⟩) rfl⟩

/-- C9: the reload continuation restores the captured view state exactly when
the modification time observed after the load differs from the one captured
before it and the editor is still visible and still showing the model's
resource; in particular an editor whose input was disposed (no input) or
re-pointed to a different resource never restores. -/
theorem view_state_restore_guard (cur afterLoad : Nat) (ed : EditorView)
    (r : FsPath) :
    (restoresViewState cur afterLoad ed r = true ↔
        (afterLoad ≠ cur ∧ ed.visible = true ∧
         isEditorShowingPath ed r = true)) ∧
    (ed.input = none → restoresViewState cur afterLoad ed r = false) ∧
    (∀ f, ed.input = some (EditorInput.file f) → f.resource ≠ r →
        restoresViewState cur afterLoad ed r = false) := by
  have hvis : isEditorShowingPath ed r = true → ed.visible = true := by
    intro h
    unfold isEditorShowingPath at h
    exact (Bool.and_eq_true .. |>.mp h).1
  refine ⟨?_, ?_, ?_⟩
  · unfold restoresViewState
    constructor
    · intro h
      have h2 := Bool.and_eq_true .. |>.mp h
      exact ⟨of_decide_eq_true h2.1, hvis h2.2, h2.2⟩
    · rintro ⟨hne, _, hshow⟩
      rw [hshow, decide_eq_true hne]
      rfl
  · intro h
    unfold restoresViewState isEditorShowingPath
    rw [h]
    simp
  · intro f h hne
    unfold restoresViewState isEditorShowingPath
    rw [h]
    simp [hne]

/-- Witness for C9: a disposed editor (no input) never restores, and a
re-pointed editor showing a different resource never restores. -/
theorem view_state_restore_guard_witness :
    restoresViewState 1 2 ⟨true, none⟩ ["r.txt"] = false ∧
    restoresViewState 1 2
      ⟨true, some (EditorInput.file ⟨["other.txt"], false⟩)⟩ ["r.txt"] = false :=
  ⟨(view_state_restore_guard 1 2 ⟨true, none⟩ ["r.txt"]).2.1 rfl,
   (view_state_restore_guard 1 2
      ⟨true, some (EditorInput.file ⟨["other.txt"], false⟩)⟩ ["r.txt"]).2.2
      ⟨["other.txt"], false⟩ rfl (by decide)⟩

end Claims

end FileEditorTracker
